import Mathlib

/-!
Verification development for the Anajak Image Studio client core:
item registry, batch job runner, activity log, preset store, and the
remote-service wrappers.  Definitions are shallow embeddings of the
TypeScript source (`src/App.tsx`, `src/components/EditTab.tsx`,
`src/components/PresetTab.tsx`, `src/services/geminiService.ts`).
-/

set_option maxRecDepth 2000

/-! ## JSON values and the persistence collaborator (`src/App.tsx`) -/

/-- A parsed JSON value, as produced by `JSON.parse`. -/
inductive Json where
  | null
  | bool (b : Bool)
  | num (n : Int)
  | str (s : String)
  | arr (xs : List Json)
  | obj (fields : List (String × Json))

/-- What `localStorage.getItem` followed by `JSON.parse` can yield for one key:
the key is absent, the stored string is unparseable (`JSON.parse` throws), or
it parses to a `Json` value. -/
inductive Persisted where
  | absent
  | unparseable
  | value (j : Json)

/-- Embeds the JS test `typeof item === 'object'`: true for objects, arrays
and `null` (all have typeof `object` in JS). -/
def jsTypeofIsObject : Json → Bool
  | .obj _ => true
  | .arr _ => true
  | .null => true
  | _ => false

/-- Embeds the JS test `item !== null` restricted to its use after the
typeof check. -/
def jsIsNull : Json → Bool
  | .null => true
  | _ => false

/-- Embeds the JS `'key' in item` test: key membership for objects; an array
has no such named property, and the test is only reached for non-null values. -/
def jsHasKey (j : Json) (k : String) : Bool :=
  match j with
  | .obj fields => fields.any (fun f => f.1 == k)
  | _ => false

/-- Embeds `Array.isArray`. -/
def jsIsArray : Json → Bool
  | .arr _ => true
  | _ => false

/-- The element check in the presets `useState` initializer in `src/App.tsx`:
`typeof item === 'object' && item !== null && 'title' in item && 'prompt' in item`. -/
def presetShapeOk (j : Json) : Bool :=
  jsTypeofIsObject j && !jsIsNull j && jsHasKey j "title" && jsHasKey j "prompt"

/-- A preset entry (`Preset` interface in `src/App.tsx`). -/
structure Preset where
  title : String
  prompt : String
deriving DecidableEq

/-- The `initialPresets` seed list from `src/App.tsx`. -/
def initialPresets : List Preset :=
  [⟨"Vintage", "Make it vintage"⟩,
   ⟨"Cinematic", "Add cinematic lighting"⟩,
   ⟨"High Contrast", "Increase contrast"⟩,
   ⟨"B&W", "Convert to black and white"⟩,
   ⟨"Dreamy", "Add a dreamlike glow"⟩]

/-- JSON encoding of a preset, as `JSON.stringify` produces for the shape
persisted by `src/App.tsx`. -/
def presetToJson (p : Preset) : Json :=
  .obj [("title", .str p.title), ("prompt", .str p.prompt)]

/-- The seed preset list as JSON values (what the presets initializer falls
back to, viewed in the common value type). -/
def seedPresetsJson : List Json :=
  initialPresets.map presetToJson

/-- The `history` `useState` initializer in `src/App.tsx`: restore the
activity log from persistence; any parseable JSON array is accepted as-is,
everything else (absent key, parse error, non-array value) falls back to the
empty log. -/
def loadHistory : Persisted → List Json
  | .absent => []
  | .unparseable => []
  | .value j =>
    match j with
    | .arr xs => xs
    | _ => []

/-- The `presets` `useState` initializer in `src/App.tsx`: restore the preset
list from persistence; accepted only if the value is an array whose every
element passes `presetShapeOk`, otherwise fall back to `initialPresets`
(rendered here in the common JSON value type). -/
def loadPresets : Persisted → List Json
  | .absent => seedPresetsJson
  | .unparseable => seedPresetsJson
  | .value j =>
    match j with
    | .arr xs => if xs.all presetShapeOk then xs else seedPresetsJson
    | _ => seedPresetsJson

/-! ## Preset store mutations (`src/components/PresetTab.tsx`,
`src/components/EditTab.tsx`) -/

/-- Drop leading whitespace characters from a character list. -/
def dropLeadingWs : List Char → List Char
  | [] => []
  | c :: cs => if c.isWhitespace then dropLeadingWs cs else c :: cs

/-- Embeds JS `String.prototype.trim`: strip whitespace from both ends. -/
def jsTrim (s : String) : String :=
  ⟨(dropLeadingWs ((dropLeadingWs s.data).reverse)).reverse⟩

/-- Embeds JS `String.prototype.toLowerCase` as used on preset titles. -/
def jsToLower (s : String) : String := ⟨s.data.map Char.toLower⟩

/-- Embeds JS `String.prototype.startsWith`. -/
def jsStartsWith (s pre : String) : Bool := pre.data.isPrefixOf s.data

/-- `handleAddPreset` from `src/components/PresetTab.tsx`, as a function from
the current preset list and the two form fields to either a validation error
message or the updated list. -/
def handleAddPreset (presets : List Preset) (title prompt : String) :
    Except String (List Preset) :=
  let trimmedTitle := jsTrim title
  let trimmedPrompt := jsTrim prompt
  if trimmedTitle = "" ∨ trimmedPrompt = "" then
    .error "Both title and instructions are required."
  else if presets.any (fun p => jsToLower p.title == jsToLower trimmedTitle) then
    .error "A preset with this title already exists."
  else if presets.any (fun p => p.prompt == trimmedPrompt) then
    .error "A preset with these instructions already exists."
  else
    .ok (⟨trimmedTitle, trimmedPrompt⟩ :: presets)

/-- `handleSaveAsPreset` from `src/components/EditTab.tsx`: the job runner's
save-current-instruction action.  `titleInput` models the `window.prompt`
answer (`none` = dialog cancelled).  The function returns `some` updated list
on success and `none` on any rejection (the source rejects by returning or
alerting, without mutating the list). -/
def handleSaveAsPreset (presets : List Preset) (prompt : String)
    (titleInput : Option String) : Option (List Preset) :=
  let trimmedPrompt := jsTrim prompt
  if trimmedPrompt = "" then none
  else
    match titleInput with
    | none => none
    | some title =>
      if jsTrim title = "" then none
      else
        let trimmedTitle := jsTrim title
        if presets.any (fun p => jsToLower p.title == jsToLower trimmedTitle) then none
        else if presets.any (fun p => p.prompt == trimmedPrompt) then none
        else some (⟨trimmedTitle, trimmedPrompt⟩ :: presets)

/-! ## Item registry (`src/components/EditTab.tsx` state and handlers)

Uploaded images, selection set, and the object-URL lifecycle.  Fresh ids and
object URLs (`crypto.randomUUID()` / `URL.createObjectURL`) are modelled by a
counter: item number `n` gets id `n` and display-handle (object URL) `n`.
The `useEffect` with dependency `[uploadedImages]` installs a cleanup that
captures the current `uploadedImages` array; React runs that cleanup whenever
the `uploadedImages` reference changes (every state update producing a new
array) and on unmount, revoking every URL in the captured array.  The state
field `effectClosure` records the array captured by the currently installed
cleanup. -/

/-- One raw input file: the (name, size) identity the dedup check uses. -/
structure FileInput where
  name : String
  size : Nat
deriving DecidableEq

/-- `UploadedImage` from `src/components/EditTab.tsx`: id, file, object URL. -/
structure UploadedImage where
  id : Nat
  fileName : String
  fileSize : Nat
  url : Nat
deriving DecidableEq

/-- The (name, size) pair of a stored item, the identity used by dedup. -/
def pairKey (img : UploadedImage) : String × Nat :=
  (img.fileName, img.fileSize)

/-- Registry-relevant component state of `EditTab`. -/
structure RegistryState where
  items : List UploadedImage
  selected : Finset Nat
  nextId : Nat
  effectClosure : List UploadedImage
deriving DecidableEq

/-- The state of a freshly mounted `EditTab`. -/
def initialState : RegistryState :=
  ⟨[], ∅, 0, []⟩

/-- The registry operations exposed by `EditTab`'s handlers. -/
inductive RegOp where
  | addItems (files : List FileInput)
  | removeItem (id : Nat)
  | clearAll
  | toggleSelection (id : Nat)
  | selectAll
  | deselectAll
deriving DecidableEq

/-- The dedup test from `handleImagesChange`:
`uploadedImages.some(img => img.file.name === file.name && img.file.size === file.size)`. -/
def matchesExisting (items : List UploadedImage) (f : FileInput) : Bool :=
  items.any (fun img => img.fileName == f.name && img.fileSize == f.size)

/-- Allocation of fresh ids and object URLs for a batch of new files,
preserving input order. -/
def freshImages (nextId : Nat) : List FileInput → List UploadedImage
  | [] => []
  | f :: fs => ⟨nextId, f.name, f.size, nextId⟩ :: freshImages (nextId + 1) fs

/-- One registry operation, returning the next state and the list of object
URLs revoked (`URL.revokeObjectURL` calls) during the operation, in call
order.  Each handler is translated from `src/components/EditTab.tsx`,
including the `useEffect` cleanup that fires whenever the `uploadedImages`
reference changes: `handleImagesChange` only updates state when some file
survives the dedup filter, `handleRemoveImage` always produces a fresh array
via `filter` (so the cleanup fires even for an unknown id), and
`handleClearAllImages` revokes directly and then resets the array. -/
def step (s : RegistryState) : RegOp → RegistryState × List Nat
  | .addItems files =>
    let newFiles := files.filter (fun f => !matchesExisting s.items f)
    if newFiles.isEmpty then (s, [])
    else
      let newImages := freshImages s.nextId newFiles
      let items' := s.items ++ newImages
      ({ items := items', selected := s.selected,
         nextId := s.nextId + newImages.length, effectClosure := items' },
       s.effectClosure.map (·.url))
  | .removeItem id =>
    let direct :=
      match s.items.find? (fun img => img.id == id) with
      | some img => [img.url]
      | none => []
    let items' := s.items.filter (fun img => img.id != id)
    ({ items := items', selected := s.selected.erase id,
       nextId := s.nextId, effectClosure := items' },
     direct ++ s.effectClosure.map (·.url))
  | .clearAll =>
    (⟨[], ∅, s.nextId, []⟩,
     s.items.map (·.url) ++ s.effectClosure.map (·.url))
  | .toggleSelection id =>
    ({ s with selected :=
        if id ∈ s.selected then s.selected.erase id else insert id s.selected }, [])
  | .selectAll =>
    ({ s with selected := (s.items.map (·.id)).toFinset }, [])
  | .deselectAll =>
    ({ s with selected := ∅ }, [])

/-- Run a sequence of registry operations from a state, accumulating all
revocation events in order. -/
def runOps (s : RegistryState) (ops : List RegOp) : RegistryState × List Nat :=
  ops.foldl (fun acc op =>
    let r := step acc.1 op
    (r.1, acc.2 ++ r.2)) (s, [])

/-- The selection set only contains ids of currently stored items. -/
def selectionSubset (s : RegistryState) : Prop :=
  ∀ id ∈ s.selected, id ∈ s.items.map (·.id)

/-! ## Remote service wrappers (`src/services/geminiService.ts`) -/

/-- `inlineData` of a response part: mime type plus base64 payload. -/
structure InlineData where
  mimeType : String
  data : String
deriving DecidableEq

/-- One response part; only its optional `inlineData` is inspected. -/
structure RespPart where
  inlineData : Option InlineData
deriving DecidableEq

/-- Optional `content.parts` of a candidate. -/
structure RespContent where
  parts : Option (List RespPart)
deriving DecidableEq

/-- One response candidate with optional content. -/
structure Candidate where
  content : Option RespContent
deriving DecidableEq

/-- A `generateContent` response as the edit wrapper reads it. -/
structure GenResponse where
  candidates : Option (List Candidate)
deriving DecidableEq

/-- Outcome of the remote `generateContent` call inside `editImageWithText`:
either the await rejects, or a response arrives. -/
inductive RemoteEditOutcome where
  | fail
  | ok (resp : GenResponse)
deriving DecidableEq

/-- The image-collection loop of `editImageWithText`: every part with
`inlineData` whose mime type starts with `image/` contributes a
`data:<mime>;base64,<data>` URL, in traversal order. -/
def collectImages (resp : GenResponse) : List String :=
  match resp.candidates with
  | none => []
  | some cs =>
    (cs.map (fun c =>
      match c.content with
      | none => []
      | some ct =>
        match ct.parts with
        | none => []
        | some ps =>
          ps.filterMap (fun p =>
            match p.inlineData with
            | none => none
            | some d =>
              if jsStartsWith d.mimeType "image/" then
                some ("data:" ++ d.mimeType ++ ";base64," ++ d.data)
              else none))).flatten

/-- The message of the error `editImageWithText` throws.  The inner
`No edited image data found in the response.` error is thrown inside the
`try` block, so the `catch` replaces it with this message as well. -/
def editFailMsg : String :=
  "Failed to edit the image. Please check your prompt and image and try again."

/-- `editImageWithText` from `src/services/geminiService.ts` as a function of
the remote outcome: a rejected call throws; a response with no image parts
throws (the inner throw is caught and re-thrown by the catch block); otherwise
the non-empty list of data URLs is returned. -/
def editImageWithText : RemoteEditOutcome → Except String (List String)
  | .fail => .error editFailMsg
  | .ok resp =>
    let images := collectImages resp
    if images.isEmpty then .error editFailMsg
    else .ok images

/-- Outcome of the remote call inside `generateTextFromImageAndText`: either
the await rejects, or a response arrives whose `.text` accessor yields
`none` (no text parts) or `some` string (possibly empty). -/
inductive RemoteTextOutcome where
  | fail
  | ok (text : Option String)
deriving DecidableEq

/-- The message of the error `generateTextFromImageAndText` throws. -/
def analyzeFailMsg : String :=
  "Failed to get a response from the AI. Please check the console for details."

/-- `generateTextFromImageAndText` from `src/services/geminiService.ts`
(the `analyze` operation): a rejected remote call throws; otherwise
`response.text` is returned as-is, with no check of its content. -/
def generateTextFromImageAndText : RemoteTextOutcome → Except String (Option String)
  | .fail => .error analyzeFailMsg
  | .ok t => .ok t

/-- The spec's notion of usable text: present and non-empty. -/
def usableText : Option String → Bool
  | none => false
  | some s => !(s == "")

/-! ## Batch job runner (`handleSubmit` in `src/components/EditTab.tsx`) -/

/-- `EditResult` from `src/components/EditTab.tsx`. -/
structure EditResult where
  originalUrl : Nat
  editedUrls : List String
  selectedEditedUrl : Option String
  error : Option String
deriving DecidableEq

/-- The self-contained encoding `fileToDataUrl` produces from a file;
derived from the file alone, independent of the ephemeral object URL. -/
structure DataUrl where
  name : String
  size : Nat
deriving DecidableEq

/-- The activity record `handleSubmit` passes to `addToHistory` for one
successful edit (`id` and `timestamp` are added by `addToHistory` itself). -/
structure EditHistoryRec where
  htype : String
  prompt : String
  inputImages : List DataUrl
  outputImages : List String
deriving DecidableEq

/-- Observable events of one `handleSubmit` run: a value published to the
`editResults` state, a progress message for an item, the start of an item's
remote call, and an `addToHistory` call. -/
inductive Event where
  | publish (m : List (Nat × EditResult))
  | progress (id : Nat)
  | remoteCall (id : Nat)
  | historyAppend (r : EditHistoryRec)
deriving DecidableEq

/-- Whether an event is a publish of the `editResults` state. -/
def isPublish : Event → Bool
  | .publish _ => true
  | _ => false

/-- `Map.prototype.set`: replace the value at an existing key in place,
otherwise append the new entry (JS maps iterate in insertion order). -/
def mapSet (m : List (Nat × EditResult)) (k : Nat) (v : EditResult) :
    List (Nat × EditResult) :=
  match m with
  | [] => [(k, v)]
  | (k', v') :: rest =>
    if k' == k then (k, v) :: rest else (k', v') :: mapSet rest k v

/-- JS `x || null` applied to `resultUrls[0]`: an absent or empty-string
first element becomes `null`. -/
def jsOrNull : Option String → Option String
  | none => none
  | some s => if s == "" then none else some s

/-- The `for` loop of `handleSubmit`: process the selected items in order,
accumulating the local `newResults` map, the `addToHistory` calls and the
observable events.  On success the history record is appended and the result
stored with `selectedEditedUrl` defaulted via `resultUrls[0] || null`; on
failure the thrown message is captured and iteration continues. -/
def runItems (prompt : String) (oracle : Nat → RemoteEditOutcome) :
    List UploadedImage → List (Nat × EditResult) →
    List (Nat × EditResult) × List EditHistoryRec × List Event
  | [], acc => (acc, [], [])
  | img :: rest, acc =>
    match editImageWithText (oracle img.id) with
    | .ok urls =>
      let rcd : EditHistoryRec :=
        ⟨"edit", prompt, [⟨img.fileName, img.fileSize⟩], urls⟩
      let acc' := mapSet acc img.id ⟨img.url, urls, jsOrNull urls.head?, none⟩
      let r := runItems prompt oracle rest acc'
      (r.1, rcd :: r.2.1,
       Event.progress img.id :: Event.remoteCall img.id ::
         Event.historyAppend rcd :: r.2.2)
    | .error e =>
      let acc' := mapSet acc img.id ⟨img.url, [], none, some e⟩
      let r := runItems prompt oracle rest acc'
      (r.1, r.2.1,
       Event.progress img.id :: Event.remoteCall img.id :: r.2.2)

/-- The outcome of one `handleSubmit` invocation: the final error-banner
text, the final published `editResults`, the `addToHistory` calls in call
order, and the event trace. -/
structure RunOutput where
  errorMsg : String
  editResults : List (Nat × EditResult)
  history : List EditHistoryRec
  trace : List Event
deriving DecidableEq

/-- The validation error message of `handleSubmit`. -/
def validationMsg : String :=
  "Please select at least one image and provide editing instructions."

/-- `handleSubmit` from `src/components/EditTab.tsx`.  `published` is the
`editResults` state when the run starts; `oracle` gives each item's remote
outcome.  Validation failure returns before any state change or remote call.
Otherwise the published collection is cleared, the selected items (in
registry insertion order) are processed sequentially, and the accumulated
map is published once after the loop. -/
def handleSubmit (prompt : String) (uploadedImages : List UploadedImage)
    (selectedImageIds : Finset Nat) (oracle : Nat → RemoteEditOutcome)
    (published : List (Nat × EditResult)) : RunOutput :=
  let trimmedPrompt := jsTrim prompt
  if trimmedPrompt = "" ∨ selectedImageIds.card = 0 then
    { errorMsg := validationMsg, editResults := published,
      history := [], trace := [] }
  else
    let sel := uploadedImages.filter (fun img => img.id ∈ selectedImageIds)
    let r := runItems trimmedPrompt oracle sel []
    { errorMsg := "", editResults := r.1, history := r.2.1,
      trace := Event.publish [] :: r.2.2 ++ [Event.publish r.1] }

/-- The published value just before event index `k` of a trace, starting
from `init` (the last `publish` strictly before `k`, else `init`). -/
def publishedAt (init : List (Nat × EditResult)) (evs : List Event) (k : Nat) :
    List (Nat × EditResult) :=
  (evs.take k).foldl (fun cur e =>
    match e with
    | Event.publish m => m
    | _ => cur) init

/-! ## Derived per-item descriptions and concrete scenario inputs -/

/-- Apply a sequence of registry operations, keeping only the final state. -/
def applyOps (s : RegistryState) (ops : List RegOp) : RegistryState :=
  ops.foldl (fun t op => (step t op).1) s

/-- Apply a sequence of registry operations, collecting every object-URL
revocation in order. -/
def opsReleases (s : RegistryState) (ops : List RegOp) : List Nat :=
  match ops with
  | [] => []
  | op :: rest => (step s op).2 ++ opsReleases (step s op).1 rest

/-- The `JobResult` entry `handleSubmit` stores for one item, as a function
of the item's remote outcome. -/
def mkResult (img : UploadedImage) (o : RemoteEditOutcome) : EditResult :=
  match editImageWithText o with
  | .ok urls => ⟨img.url, urls, jsOrNull urls.head?, none⟩
  | .error e => ⟨img.url, [], none, some e⟩

/-- The data URLs returned by a successful edit (empty for a failed one). -/
def okUrls (o : RemoteEditOutcome) : List String :=
  match editImageWithText o with
  | .ok urls => urls
  | .error _ => []

/-- The activity record `handleSubmit` appends for one successful item. -/
def mkRecord (prompt : String) (img : UploadedImage) (o : RemoteEditOutcome) :
    EditHistoryRec :=
  ⟨"edit", prompt, [⟨img.fileName, img.fileSize⟩], okUrls o⟩

/-- A remote response carrying exactly one image part. -/
def oneImageResp : GenResponse :=
  ⟨some [⟨some ⟨some [⟨some ⟨"image/png", "QUJD"⟩⟩]⟩⟩]⟩

/-- Three uploaded items for the mixed success/failure scenario. -/
def w1Images : List UploadedImage :=
  [⟨1, "a.png", 10, 11⟩, ⟨2, "b.png", 20, 12⟩, ⟨3, "c.png", 30, 13⟩]

/-- Remote outcomes for the mixed scenario: item 2 fails, the others return
one image. -/
def w1Oracle : Nat → RemoteEditOutcome :=
  fun id => if id = 2 then RemoteEditOutcome.fail else RemoteEditOutcome.ok oneImageResp

/-- Two uploaded items for the publication-timing scenario. -/
def c8Images : List UploadedImage :=
  [⟨1, "a.png", 10, 11⟩, ⟨2, "b.png", 20, 12⟩]

/-- Add one file, then remove the resulting item: the smallest sequence on
which the display handle is revoked twice. -/
def c3Ops : List RegOp :=
  [RegOp.addItems [⟨"a.png", 1⟩], RegOp.removeItem 0]

/-- A state with one stored item (id 0) that is not selected. -/
def c5WitnessState : RegistryState :=
  ⟨[⟨0, "a.png", 1, 0⟩], ∅, 1, [⟨0, "a.png", 1, 0⟩]⟩

/-- Oracle for the publication-timing scenario: every call returns one
image. -/
def c8Oracle : Nat → RemoteEditOutcome := fun _ => RemoteEditOutcome.ok oneImageResp

/-- The runner output of the publication-timing scenario: two selected
items, both succeeding. -/
def c8Run : RunOutput := handleSubmit "brighten" c8Images {1, 2} c8Oracle []

/-- The runner output of the mixed success/failure scenario: three selected
items, the second failing. -/
def w1Run : RunOutput := handleSubmit "make it pop" w1Images {1, 2, 3} w1Oracle []

/-! ## Theorems -/

/-- C9 counterexample: a remote response whose `.text` is empty or absent is
returned as-is by the analyze operation — no `ServiceError` is raised, and
the returned text is not usable, contradicting the claim that the operation
either returns usable text or fails. -/
theorem c9_counterexample :
    generateTextFromImageAndText (RemoteTextOutcome.ok (some "")) = Except.ok (some "") ∧
    usableText (some "") = false ∧
    generateTextFromImageAndText (RemoteTextOutcome.ok none) = Except.ok none ∧
    usableText none = false :=
  ⟨rfl, rfl, rfl, rfl⟩

/-- C9 amended: the analyze operation fails with a `ServiceError` exactly
when the remote call errors; when the remote call succeeds it returns the
response's text field verbatim, with no check that the text is usable. -/
theorem c9_analyze_amended :
    (generateTextFromImageAndText RemoteTextOutcome.fail = Except.error analyzeFailMsg ∧
      analyzeFailMsg ≠ "") ∧
    (∀ t : Option String,
      generateTextFromImageAndText (RemoteTextOutcome.ok t) = Except.ok t) :=
  ⟨⟨rfl, by decide⟩, fun _ => rfl⟩

/-- C9 witness: the amended theorem evaluated on a concrete successful
response. -/
theorem c9_analyze_amended_witness :
    generateTextFromImageAndText (RemoteTextOutcome.ok (some "a cat")) =
      Except.ok (some "a cat") :=
  c9_analyze_amended.2 (some "a cat")

/-- C7: for an absent, unparseable, or non-array persisted value, startup
restore never fails: the activity log falls back to the empty log and the
preset store falls back to the fixed five-entry seed set. -/
theorem c7_load_fallback :
    (loadHistory Persisted.absent = [] ∧
      loadPresets Persisted.absent = seedPresetsJson) ∧
    (loadHistory Persisted.unparseable = [] ∧
      loadPresets Persisted.unparseable = seedPresetsJson) ∧
    (∀ j : Json, jsIsArray j = false →
      loadHistory (Persisted.value j) = [] ∧
      loadPresets (Persisted.value j) = seedPresetsJson) ∧
    seedPresetsJson = initialPresets.map presetToJson ∧
    seedPresetsJson.length = 5 := by
  refine ⟨⟨rfl, rfl⟩, ⟨rfl, rfl⟩, ?_, rfl, rfl⟩
  intro j hj
  cases j with
  | arr xs => simp [jsIsArray] at hj
  | null => exact ⟨rfl, rfl⟩
  | bool b => exact ⟨rfl, rfl⟩
  | num n => exact ⟨rfl, rfl⟩
  | str s => exact ⟨rfl, rfl⟩
  | obj fields => exact ⟨rfl, rfl⟩

/-- C7 witness: the fallback theorem evaluated at a persisted JSON `null`. -/
theorem c7_load_fallback_witness :
    loadHistory (Persisted.value Json.null) = [] ∧
    loadPresets (Persisted.value Json.null) = seedPresetsJson :=
  c7_load_fallback.2.2.1 Json.null rfl

/-- C10: the two stores validate persisted data to different depths — the
activity log accepts any JSON array unchanged, element shape unchecked, so a
malformed element record enters the in-memory log; the preset store
additionally requires every element to be a non-null object with both a
`title` and a `prompt` key, and falls back to the seed set otherwise. -/
theorem c10_validation_depth :
    (∀ xs : List Json, loadHistory (Persisted.value (Json.arr xs)) = xs) ∧
    (∀ xs : List Json, xs.all presetShapeOk = true →
      loadPresets (Persisted.value (Json.arr xs)) = xs) ∧
    (∀ xs : List Json, xs.all presetShapeOk = false →
      loadPresets (Persisted.value (Json.arr xs)) = seedPresetsJson) ∧
    presetShapeOk (Json.num 3) = false ∧
    presetShapeOk Json.null = false ∧
    presetShapeOk (Json.obj [("title", Json.null)]) = false ∧
    presetShapeOk (Json.obj [("title", Json.null), ("prompt", Json.null)]) = true ∧
    loadHistory (Persisted.value (Json.arr [Json.num 3])) = [Json.num 3] := by
  refine ⟨fun xs => rfl, fun xs h => ?_, fun xs h => ?_, rfl, rfl, by decide, by decide, rfl⟩
  · simp [loadPresets, h]
  · simp [loadPresets, h]

/-- C10 witness: a well-shaped array is accepted by the preset store, while
an array with a malformed element falls back to the seed set even though the
same array is accepted verbatim by the activity log. -/
theorem c10_validation_depth_witness :
    loadPresets (Persisted.value (Json.arr [presetToJson ⟨"A", "X"⟩])) =
      [presetToJson ⟨"A", "X"⟩] ∧
    loadPresets (Persisted.value (Json.arr [Json.num 3])) = seedPresetsJson ∧
    loadHistory (Persisted.value (Json.arr [Json.num 3])) = [Json.num 3] :=
  ⟨c10_validation_depth.2.1 _ (by decide),
   c10_validation_depth.2.2.1 _ (by decide),
   c10_validation_depth.2.2.2.2.2.2.2⟩

/-- C6: adding a preset — through the preset form (`handleAddPreset`) or the
job runner's save-current-instruction action (`handleSaveAsPreset`), which
applies the identical checks — is rejected without mutation when either
field is empty after trimming, when the label collides case-insensitively
with an existing entry, or when the instruction exactly matches an existing
entry's instruction; on success the new entry is inserted at the front. -/
theorem c6_preset_add_validation :
    ∀ (presets : List Preset) (title prompt : String),
      (handleSaveAsPreset presets prompt (some title) =
        (handleAddPreset presets title prompt).toOption) ∧
      ((handleAddPreset presets title prompt).isOk = true ↔
        (¬ jsTrim title = "" ∧ ¬ jsTrim prompt = "" ∧
         presets.any (fun p => jsToLower p.title == jsToLower (jsTrim title)) = false ∧
         presets.any (fun p => p.prompt == jsTrim prompt) = false)) ∧
      (∀ l, handleAddPreset presets title prompt = .ok l →
        l = ⟨jsTrim title, jsTrim prompt⟩ :: presets) := by
  intro presets title prompt
  by_cases h1 : jsTrim title = "" <;>
    by_cases h2 : jsTrim prompt = "" <;>
      by_cases h3 : presets.any (fun p => jsToLower p.title == jsToLower (jsTrim title)) = true <;>
        by_cases h4 : presets.any (fun p => p.prompt == jsTrim prompt) = true <;>
          simp [handleAddPreset, handleSaveAsPreset, h1, h2, h3, h4,
            Except.toOption, Except.isOk, Except.toBool]

/-- C6 witness: a fresh label and instruction pass both entry points and are
inserted at the front of the empty list. -/
theorem c6_preset_add_validation_witness :
    (handleSaveAsPreset [] "  Make it pop  " (some "Pop") =
      (handleAddPreset [] "Pop" "  Make it pop  ").toOption) ∧
    (handleAddPreset [] "Pop" "  Make it pop  ").isOk = true :=
  ⟨(c6_preset_add_validation [] "Pop" "  Make it pop  ").1,
   (c6_preset_add_validation [] "Pop" "  Make it pop  ").2.1.mpr (by decide)⟩

/-- Freshly allocated items carry exactly the (name, size) pairs of their
input files, in order. -/
theorem freshImages_map_pairKey (n : Nat) (fs : List FileInput) :
    (freshImages n fs).map pairKey = fs.map (fun f => (f.name, f.size)) := by
  induction fs generalizing n with
  | nil => rfl
  | cons f fs ih => simp [freshImages, pairKey, ih]

/-- The dedup test fails exactly when no stored item has the file's
(name, size) pair. -/
theorem matchesExisting_eq_false_iff (items : List UploadedImage) (f : FileInput) :
    matchesExisting items f = false ↔ (f.name, f.size) ∉ items.map pairKey := by
  rw [← Bool.not_eq_true]
  unfold matchesExisting
  rw [List.any_eq_true]
  simp only [List.mem_map, pairKey, Bool.and_eq_true, beq_iff_eq, not_exists, not_and,
    Prod.mk.injEq]

/-- One registry operation preserves distinctness of stored (name, size)
pairs, provided an `addItems` batch has no internal duplicates. -/
theorem step_pairKey_nodup (s : RegistryState) (op : RegOp)
    (hs : (s.items.map pairKey).Nodup)
    (hop : ∀ fs, op = RegOp.addItems fs → (fs.map (fun f => (f.name, f.size))).Nodup) :
    ((step s op).1.items.map pairKey).Nodup := by
  cases op with
  | addItems files =>
    have hb := hop files rfl
    by_cases he : (files.filter (fun f => !matchesExisting s.items f)).isEmpty
    · simpa [step, he] using hs
    · simp only [step, he, Bool.false_eq_true, if_false]
      rw [List.map_append, List.nodup_append]
      refine ⟨hs, ?_, ?_⟩
      · rw [freshImages_map_pairKey]
        exact hb.sublist ((List.filter_sublist _).map _)
      · rw [freshImages_map_pairKey]
        intro x hx hx'
        simp only [List.mem_map, List.mem_filter, Bool.not_eq_eq_eq_not, Bool.not_true] at hx'
        obtain ⟨f, ⟨hfmem, hfmatch⟩, hfx⟩ := hx'
        exact (matchesExisting_eq_false_iff s.items f).mp hfmatch (hfx ▸ hx)
  | removeItem id =>
    exact hs.sublist ((List.filter_sublist _).map _)
  | clearAll => simp [step]
  | toggleSelection id => exact hs
  | selectAll => exact hs
  | deselectAll => exact hs

/-- C4 counterexample: a single `addItems` call whose batch contains two
files with the same (name, size) stores both — the dedup filter only checks
against items that already existed before the call, so the resulting
registry holds two items with identical (name, size), falsifying the claim
for batches with internal duplicates. -/
theorem c4_counterexample :
    ((step initialState (RegOp.addItems [⟨"a.png", 1⟩, ⟨"a.png", 1⟩])).1.items.map pairKey =
      [("a.png", 1), ("a.png", 1)]) ∧
    ¬ ((step initialState
        (RegOp.addItems [⟨"a.png", 1⟩, ⟨"a.png", 1⟩])).1.items.map pairKey).Nodup := by
  exact ⟨by decide, by decide⟩

/-- C4 amended: the dedup check consults only items stored before the call,
so inputs matching an existing (name, size) are skipped (re-adding is a
no-op on registry contents) and new items are appended preserving input
order; consequently no two stored items ever share a (name, size) pair
provided each individual batch has no internal duplicate pairs — a batch
with internal duplicates adds them all. -/
theorem c4_dedup_amended (ops : List RegOp)
    (hb : ∀ fs, RegOp.addItems fs ∈ ops → (fs.map (fun f => (f.name, f.size))).Nodup) :
    ((applyOps initialState ops).items.map pairKey).Nodup ∧
    (∀ (s : RegistryState) (files : List FileInput),
      (∀ f ∈ files, matchesExisting s.items f = true) →
      (step s (RegOp.addItems files)).1 = s) ∧
    (∀ (s : RegistryState) (files : List FileInput),
      (step s (RegOp.addItems files)).1.items =
        s.items ++ freshImages s.nextId
          (files.filter (fun f => !matchesExisting s.items f))) := by
  refine ⟨?_, ?_, ?_⟩
  · have main : ∀ (l : List RegOp) (s : RegistryState),
        (s.items.map pairKey).Nodup →
        (∀ fs, RegOp.addItems fs ∈ l → (fs.map (fun f => (f.name, f.size))).Nodup) →
        ((applyOps s l).items.map pairKey).Nodup := by
      intro l
      induction l with
      | nil => intro s hs _; exact hs
      | cons op rest ih =>
        intro s hs hl
        have h1 : ((step s op).1.items.map pairKey).Nodup :=
          step_pairKey_nodup s op hs (fun fs hfs => hl fs (by simp [hfs]))
        exact ih (step s op).1 h1 (fun fs hfs => hl fs (by simp [hfs]))
    exact main ops initialState (by simp [initialState]) hb
  · intro s files hall
    have hfil : files.filter (fun f => !matchesExisting s.items f) = [] := by
      rw [List.filter_eq_nil_iff]
      intro f hf
      simp [hall f hf]
    simp [step, hfil]
  · intro s files
    by_cases he : (files.filter (fun f => !matchesExisting s.items f)).isEmpty
    · rw [List.isEmpty_iff] at he
      simp [step, he, freshImages]
    · simp [step, he]

/-- C4 witness: the amended theorem evaluated on a two-call sequence that
re-adds an existing file and adds a fresh one. -/
theorem c4_dedup_amended_witness :
    ((applyOps initialState
      [RegOp.addItems [⟨"a.png", 1⟩],
       RegOp.addItems [⟨"a.png", 1⟩, ⟨"b.png", 2⟩]]).items.map pairKey).Nodup :=
  (c4_dedup_amended _
    (by
      intro fs hm
      simp only [List.mem_cons, List.not_mem_nil, or_false, RegOp.addItems.injEq] at hm
      rcases hm with h | h <;> subst h <;> decide)).1

/-- C5 counterexample: `toggleSelection` on an id that is not registered is
not a no-op — the code toggles membership unconditionally, so the unknown id
is added to the selection set, which then is not a subset of the registered
ids. -/
theorem c5_counterexample :
    (step initialState (RegOp.toggleSelection 5)).1.selected = {5} ∧
    ¬ selectionSubset (step initialState (RegOp.toggleSelection 5)).1 := by
  refine ⟨by decide, ?_⟩
  unfold selectionSubset
  decide

/-- C5 amended: `toggleSelection(id)` toggles membership unconditionally
(removing a selected id and adding any unselected one, registered or not);
when `toggleSelection` is only invoked with currently-registered ids — as
the view does — every operation preserves the invariant that the selection
set is a subset of the registered item ids, and `removeItem(id)` prunes the
removed id from the selection. -/
theorem c5_selection_amended :
    (∀ (s : RegistryState) (id : Nat), id ∈ s.selected →
      (step s (RegOp.toggleSelection id)).1.selected = s.selected.erase id) ∧
    (∀ (s : RegistryState) (id : Nat), id ∉ s.selected →
      (step s (RegOp.toggleSelection id)).1.selected = insert id s.selected) ∧
    (∀ (s : RegistryState) (op : RegOp), selectionSubset s →
      (∀ id, op = RegOp.toggleSelection id → id ∈ s.items.map (·.id)) →
      selectionSubset (step s op).1) ∧
    (∀ (s : RegistryState) (id : Nat),
      id ∉ (step s (RegOp.removeItem id)).1.selected) := by
  refine ⟨?_, ?_, ?_, ?_⟩
  · intro s id h; simp [step, h]
  · intro s id h; simp [step, h]
  · intro s op hsub hop
    cases op with
    | addItems files =>
      by_cases he : (files.filter (fun f => !matchesExisting s.items f)).isEmpty
      · simpa [step, he, selectionSubset] using hsub
      · intro id hid
        simp only [step, he, Bool.false_eq_true, if_false] at hid ⊢
        have := hsub id hid
        simp only [List.map_append, List.mem_append]
        exact Or.inl this
    | removeItem rid =>
      intro id hid
      simp only [step, Finset.mem_erase] at hid
      obtain ⟨hne, hsel⟩ := hid
      have := hsub id hsel
      simp only [List.mem_map] at this ⊢
      obtain ⟨img, himg, himgid⟩ := this
      refine ⟨img, ?_, himgid⟩
      simp only [step, List.mem_filter, bne_iff_ne, ne_eq]
      exact ⟨himg, fun hc => hne (himgid ▸ hc ▸ rfl)⟩
    | clearAll =>
      intro id hid
      simp [step] at hid
    | toggleSelection tid =>
      intro id hid
      by_cases ht : tid ∈ s.selected
      · simp only [step, ht, if_true, Finset.mem_erase] at hid
        exact hsub id hid.2
      · simp only [step, ht, if_false, Finset.mem_insert] at hid
        rcases hid with h | h
        · exact h ▸ hop tid rfl
        · exact hsub id h
    | selectAll =>
      intro id hid
      simpa [step, List.mem_toFinset] using hid
    | deselectAll =>
      intro id hid
      simp [step] at hid
  · intro s id
    simp [step]

/-- C5 witness: the amended invariant evaluated at a toggle of a registered
id from a one-item state. -/
theorem c5_selection_amended_witness :
    selectionSubset (step c5WitnessState (RegOp.toggleSelection 0)).1 :=
  c5_selection_amended.2.2.1 c5WitnessState (RegOp.toggleSelection 0)
    (by unfold selectionSubset; decide)
    (fun id h => by injection h with h2; subst h2; decide)

/-- C3: the smallest add-then-remove sequence revokes the removed item's
display handle (object URL 0) twice: once directly in `handleRemoveImage`
and once more in the `useEffect` cleanup that runs because the
`uploadedImages` dependency changed — the release-exactly-once claim holds
in the spec but is broken by the code. -/
theorem c3_double_release :
    opsReleases initialState c3Ops = [0, 0] ∧
    (opsReleases initialState c3Ops).count 0 = 2 ∧
    (applyOps initialState c3Ops).items = [] := by
  exact ⟨by decide, by decide, by decide⟩

/-- Every collected image URL is a `data:` URL and in particular non-empty. -/
theorem collectImages_ne_empty (resp : GenResponse) :
    ∀ u ∈ collectImages resp, ¬ u = "" := by
  intro u hu
  unfold collectImages at hu
  cases hres : resp.candidates with
  | none => simp [hres] at hu
  | some cs =>
    simp only [hres, List.mem_flatten, List.mem_map] at hu
    obtain ⟨l, ⟨c, hc, hl⟩, hul⟩ := hu
    subst hl
    cases hcc : c.content with
    | none => simp [hcc] at hul
    | some ct =>
      cases hps : ct.parts with
      | none => simp [hcc, hps] at hul
      | some ps =>
        simp only [hcc, hps, List.mem_filterMap] at hul
        obtain ⟨p, hp, hpu⟩ := hul
        cases hpd : p.inlineData with
        | none => simp [hpd] at hpu
        | some d =>
          simp only [hpd] at hpu
          by_cases hm : jsStartsWith d.mimeType "image/"
          · simp only [hm, if_true, Option.some.injEq] at hpu
            subst hpu
            intro hcontr
            have h0 := congrArg String.length hcontr
            simp only [String.length_append] at h0
            have h5 : "data:".length = 5 := rfl
            have h00 : "".length = 0 := rfl
            omega
          · simp [hm] at hpu

/-- A successful `editImageWithText` returns a non-empty list of non-empty
data URLs. -/
theorem editImageWithText_ok_spec (o : RemoteEditOutcome) (urls : List String)
    (h : editImageWithText o = Except.ok urls) :
    ¬ urls = [] ∧ ∀ u ∈ urls, ¬ u = "" := by
  cases o with
  | fail => simp [editImageWithText] at h
  | ok resp =>
    simp only [editImageWithText] at h
    by_cases he : (collectImages resp).isEmpty
    · simp [he] at h
    · simp only [he, Bool.false_eq_true, if_false, Except.ok.injEq] at h
      subst h
      exact ⟨by simpa [List.isEmpty_iff] using he, collectImages_ne_empty resp⟩

/-- The only error `editImageWithText` surfaces is the catch block's fixed
message. -/
theorem editImageWithText_error_eq (o : RemoteEditOutcome) (e : String)
    (h : editImageWithText o = Except.error e) : e = editFailMsg := by
  cases o with
  | fail =>
    simp only [editImageWithText, Except.error.injEq] at h
    exact h.symm
  | ok resp =>
    simp only [editImageWithText] at h
    by_cases he : (collectImages resp).isEmpty
    · simp only [he, if_true, Except.error.injEq] at h
      exact h.symm
    · simp [he] at h

/-- Setting an absent key appends the entry at the end of the map. -/
theorem mapSet_of_not_mem (m : List (Nat × EditResult)) (k : Nat) (v : EditResult)
    (h : k ∉ m.map Prod.fst) : mapSet m k v = m ++ [(k, v)] := by
  induction m with
  | nil => rfl
  | cons kv rest ih =>
    obtain ⟨k', v'⟩ := kv
    simp only [List.map_cons, List.mem_cons, not_or] at h
    have hne : (k' == k) = false := by
      rw [beq_eq_false_iff_ne]
      exact fun hc => h.1 hc.symm
    simp [mapSet, hne, ih h.2]

/-- The runner's loop stores exactly one entry per selected item, keyed by
item id in iteration order, with the per-item result described by
`mkResult`. -/
theorem runItems_results (prompt : String) (oracle : Nat → RemoteEditOutcome)
    (sel : List UploadedImage) :
    ∀ acc : List (Nat × EditResult),
      (sel.map (fun i => i.id)).Nodup →
      (∀ img ∈ sel, img.id ∉ acc.map Prod.fst) →
      (runItems prompt oracle sel acc).1 =
        acc ++ sel.map (fun img => (img.id, mkResult img (oracle img.id))) := by
  induction sel with
  | nil => intro acc _ _; simp [runItems]
  | cons img rest ih =>
    intro acc hnd hdis
    simp only [List.map_cons, List.nodup_cons] at hnd
    have hstep : ∀ v : EditResult, mapSet acc img.id v = acc ++ [(img.id, v)] :=
      fun v => mapSet_of_not_mem acc img.id v (hdis img (List.mem_cons_self _ _))
    have hdis' : ∀ v : EditResult, ∀ i ∈ rest,
        i.id ∉ (acc ++ [(img.id, v)]).map Prod.fst := by
      intro v i hi
      rw [List.map_append, List.mem_append]
      rintro (hc | hc)
      · exact hdis i (List.mem_cons_of_mem _ hi) hc
      · simp only [List.map_cons, List.map_nil, List.mem_singleton] at hc
        have hmm : i.id ∈ rest.map (fun i => i.id) := List.mem_map_of_mem _ hi
        rw [hc] at hmm
        exact hnd.1 hmm
    cases h : editImageWithText (oracle img.id) with
    | ok urls =>
      have hmk : mkResult img (oracle img.id) = ⟨img.url, urls, jsOrNull urls.head?, none⟩ := by
        simp [mkResult, h]
      simp only [runItems, h]
      rw [hstep, ih _ hnd.2 (hdis' _), ← hmk]
      simp [List.append_assoc]
    | error e =>
      have hmk : mkResult img (oracle img.id) = ⟨img.url, [], none, some e⟩ := by
        simp [mkResult, h]
      simp only [runItems, h]
      rw [hstep, ih _ hnd.2 (hdis' _), ← hmk]
      simp [List.append_assoc]

/-- The runner's loop appends exactly one activity record per successful
item, none for failed items, in completion order. -/
theorem runItems_history (prompt : String) (oracle : Nat → RemoteEditOutcome)
    (sel : List UploadedImage) :
    ∀ acc, (runItems prompt oracle sel acc).2.1 =
      (sel.filter (fun img => (editImageWithText (oracle img.id)).isOk)).map
        (fun img => mkRecord prompt img (oracle img.id)) := by
  induction sel with
  | nil => intro acc; rfl
  | cons img rest ih =>
    intro acc
    cases h : editImageWithText (oracle img.id) with
    | ok urls =>
      simp only [runItems, h, List.filter_cons]
      have hok : mkRecord prompt img (oracle img.id) =
          ⟨"edit", prompt, [⟨img.fileName, img.fileSize⟩], urls⟩ := by
        simp [mkRecord, okUrls, h]
      simp [h, Except.isOk, Except.toBool, ih, hok]
    | error e =>
      simp only [runItems, h, List.filter_cons]
      simp [h, Except.isOk, Except.toBool, ih]

/-- The runner's loop never publishes the results collection. -/
theorem runItems_noPublish (prompt : String) (oracle : Nat → RemoteEditOutcome)
    (sel : List UploadedImage) :
    ∀ acc, ((runItems prompt oracle sel acc).2.2).filter isPublish = [] := by
  induction sel with
  | nil => intro acc; rfl
  | cons img rest ih =>
    intro acc
    cases h : editImageWithText (oracle img.id) with
    | ok urls => simp [runItems, h, isPublish, ih]
    | error e => simp [runItems, h, isPublish, ih]

/-- Looking up an item's id in the loop's final map yields that item's
`mkResult` entry, given distinct ids. -/
theorem lookup_map_mkResult (oracle : Nat → RemoteEditOutcome)
    (sel : List UploadedImage) (img : UploadedImage)
    (hnd : (sel.map (fun i => i.id)).Nodup) (hmem : img ∈ sel) :
    List.lookup img.id (sel.map (fun i => (i.id, mkResult i (oracle i.id)))) =
      some (mkResult img (oracle img.id)) := by
  induction sel with
  | nil => cases hmem
  | cons i rest ih =>
    simp only [List.map_cons, List.nodup_cons] at hnd
    rcases List.mem_cons.mp hmem with h | h
    · subst h
      simp [List.lookup_cons]
    · have hne : (img.id == i.id) = false := by
        rw [beq_eq_false_iff_ne]
        intro hc
        have hmm : img.id ∈ rest.map (fun i => i.id) := List.mem_map_of_mem _ h
        rw [hc] at hmm
        exact hnd.1 hmm
      simp [List.lookup_cons, hne, ih hnd.2 h]

/-- C2: starting a batch run with an instruction that is empty after
trimming, or with an empty selection set, reports the validation message to
the caller and returns with the published `JobResult` collection unchanged,
no activity appended, and an empty event trace — in particular no remote
call and no publication happens. -/
theorem c2_validation_guard (prompt : String) (uploadedImages : List UploadedImage)
    (selectedImageIds : Finset Nat) (oracle : Nat → RemoteEditOutcome)
    (published : List (Nat × EditResult))
    (h : jsTrim prompt = "" ∨ selectedImageIds = ∅) :
    handleSubmit prompt uploadedImages selectedImageIds oracle published =
      { errorMsg := validationMsg, editResults := published,
        history := [], trace := [] } := by
  have hc : jsTrim prompt = "" ∨ selectedImageIds.card = 0 := by
    rcases h with h | h
    · exact Or.inl h
    · exact Or.inr (by simp [h])
  rcases hc with h1 | h1 <;> simp [handleSubmit, h1]

/-- C2 witness: a whitespace-only instruction with a non-empty selection
leaves a pre-existing result collection untouched. -/
theorem c2_validation_guard_witness :
    handleSubmit "   " w1Images {1} w1Oracle [(7, ⟨9, [], none, none⟩)] =
      { errorMsg := validationMsg, editResults := [(7, ⟨9, [], none, none⟩)],
        history := [], trace := [] } :=
  c2_validation_guard "   " w1Images {1} w1Oracle [(7, ⟨9, [], none, none⟩)]
    (Or.inl (by decide))

/-- C8 counterexample: in a two-item run where both items succeed, item 1's
remote call (trace index 2) completes (its history append is at index 3)
before item 2's remote call starts (index 5), yet the collection published
at that point is still the empty one from the start-of-run clear — it does
not contain item 1's entry, falsifying the incremental-population claim. -/
theorem c8_counterexample :
    c8Run.trace.get? 2 = some (Event.remoteCall 1) ∧
    c8Run.trace.get? 3 =
      some (Event.historyAppend
        ⟨"edit", "brighten", [⟨"a.png", 10⟩], ["data:image/png;base64,QUJD"]⟩) ∧
    c8Run.trace.get? 5 = some (Event.remoteCall 2) ∧
    publishedAt [] c8Run.trace 5 = [] ∧
    List.lookup 1 (publishedAt [] c8Run.trace 5) = none := by
  exact ⟨by decide, by decide, by decide, by decide, by decide⟩

/-- C8 amended: the published collection is cleared at the start of the run
and is not touched again while items are processed; the complete map is
published once, at run end — the only publish events in a valid run's trace
are the initial clear and the final full map. -/
theorem c8_publish_amended (prompt : String) (uploadedImages : List UploadedImage)
    (selectedImageIds : Finset Nat) (oracle : Nat → RemoteEditOutcome)
    (published : List (Nat × EditResult))
    (hp : ¬ jsTrim prompt = "")
    (hcard : ¬ selectedImageIds.card = 0) :
    (handleSubmit prompt uploadedImages selectedImageIds oracle published).trace.head? =
      some (Event.publish []) ∧
    (handleSubmit prompt uploadedImages selectedImageIds oracle published).trace.filter
        isPublish =
      [Event.publish [],
       Event.publish
         (handleSubmit prompt uploadedImages selectedImageIds oracle published).editResults] := by
  constructor
  · simp [handleSubmit, hp, hcard]
  · simp [handleSubmit, hp, hcard, List.filter_append, List.filter_cons, isPublish,
      runItems_noPublish]

/-- C8 witness: the amended publication shape evaluated on the concrete
two-item run. -/
theorem c8_publish_amended_witness :
    c8Run.trace.filter isPublish =
      [Event.publish [], Event.publish c8Run.editResults] :=
  (c8_publish_amended "brighten" c8Images {1, 2} c8Oracle [] (by decide) (by decide)).2

/-- C1: a batch run over the selected items is never aborted by a per-item
failure: the final `JobResult` map has exactly one entry per selected item,
keyed in registry insertion order; a failed item's entry has empty outputs
and a non-empty failure message; a successful item's entry carries the
returned non-empty outputs, no failure, and the active output defaulted to
the first output; and exactly one activity record is appended per successful
item (none for failed items), in completion order. -/
theorem c1_batch_partial_failure (prompt : String)
    (uploadedImages : List UploadedImage) (selectedImageIds : Finset Nat)
    (oracle : Nat → RemoteEditOutcome) (published : List (Nat × EditResult))
    (hp : ¬ jsTrim prompt = "") (hcard : ¬ selectedImageIds.card = 0)
    (hids : (uploadedImages.map (fun i => i.id)).Nodup) :
    (handleSubmit prompt uploadedImages selectedImageIds oracle published).editResults.map
        Prod.fst =
      (uploadedImages.filter (fun img => img.id ∈ selectedImageIds)).map (fun i => i.id) ∧
    (∀ img ∈ uploadedImages.filter (fun img => img.id ∈ selectedImageIds),
      (∀ e, editImageWithText (oracle img.id) = Except.error e →
        List.lookup img.id
            (handleSubmit prompt uploadedImages selectedImageIds oracle
              published).editResults =
          some ⟨img.url, [], none, some e⟩ ∧ ¬ e = "") ∧
      (∀ urls, editImageWithText (oracle img.id) = Except.ok urls →
        List.lookup img.id
            (handleSubmit prompt uploadedImages selectedImageIds oracle
              published).editResults =
          some ⟨img.url, urls, urls.head?, none⟩ ∧ ¬ urls = [])) ∧
    (handleSubmit prompt uploadedImages selectedImageIds oracle published).history =
      ((uploadedImages.filter (fun img => img.id ∈ selectedImageIds)).filter
        (fun img => (editImageWithText (oracle img.id)).isOk)).map
        (fun img => mkRecord (jsTrim prompt) img (oracle img.id)) := by
  have hcond : ¬ (jsTrim prompt = "" ∨ selectedImageIds.card = 0) := by
    rintro (h | h)
    · exact hp h
    · exact hcard h
  have hnodupsel :
      ((uploadedImages.filter (fun img => img.id ∈ selectedImageIds)).map
        (fun i => i.id)).Nodup :=
    hids.sublist ((List.filter_sublist _).map _)
  have hres : (handleSubmit prompt uploadedImages selectedImageIds oracle
        published).editResults =
      (uploadedImages.filter (fun img => img.id ∈ selectedImageIds)).map
        (fun img => (img.id, mkResult img (oracle img.id))) := by
    simp only [handleSubmit, hcond, if_false]
    rw [runItems_results _ _ _ _ hnodupsel (fun img _ => by simp)]
    simp
  refine ⟨?_, ?_, ?_⟩
  · rw [hres, List.map_map]
    rfl
  · intro img hmem
    have hlook : List.lookup img.id (handleSubmit prompt uploadedImages selectedImageIds
          oracle published).editResults = some (mkResult img (oracle img.id)) := by
      rw [hres]
      exact lookup_map_mkResult oracle _ img hnodupsel hmem
    constructor
    · intro e he
      have hmk : mkResult img (oracle img.id) = ⟨img.url, [], none, some e⟩ := by
        simp [mkResult, he]
      refine ⟨by rw [hlook, hmk], ?_⟩
      rw [editImageWithText_error_eq _ _ he]
      decide
    · intro urls hu
      obtain ⟨hne, hall⟩ := editImageWithText_ok_spec _ _ hu
      have hjs : jsOrNull urls.head? = urls.head? := by
        cases urls with
        | nil => exact absurd rfl hne
        | cons u rest =>
          have hu0 : ¬ u = "" := hall u (List.mem_cons_self _ _)
          simp [jsOrNull, hu0]
      have hmk : mkResult img (oracle img.id) = ⟨img.url, urls, urls.head?, none⟩ := by
        simp [mkResult, hu, hjs]
      exact ⟨by rw [hlook, hmk], hne⟩
  · simp only [handleSubmit, hcond, if_false]
    rw [runItems_history]

/-- C1 witness: the mixed scenario — three selected items, the external
transform failing on the second — yields three entries in order and a
captured failure for item 2. -/
theorem c1_batch_partial_failure_witness :
    w1Run.editResults.map Prod.fst = [1, 2, 3] ∧
    List.lookup 2 w1Run.editResults = some ⟨12, [], none, some editFailMsg⟩ ∧
    w1Run.history.length = 2 := by
  have h := c1_batch_partial_failure "make it pop" w1Images {1, 2, 3} w1Oracle []
    (by decide) (by decide) (by decide)
  refine ⟨?_, ?_, ?_⟩
  · have hg : w1Run.editResults.map Prod.fst =
        (handleSubmit "make it pop" w1Images {1, 2, 3} w1Oracle []).editResults.map
          Prod.fst := rfl
    rw [hg, h.1]
    decide
  · have h2 := (h.2.1 ⟨2, "b.png", 20, 12⟩ (by decide)).1 editFailMsg rfl
    exact h2.1
  · have hg : w1Run.history =
        (handleSubmit "make it pop" w1Images {1, 2, 3} w1Oracle []).history := rfl
    rw [hg, h.2.2]
    decide
